import Mathlib

/-!
Verification development for the PA2 shell (`src/shell.cpp`).

The shell reads a line, tokenizes it into a list of commands (pipeline
stages), handles the `cd` built-in in the parent process, and otherwise
forks one child per stage, wiring the stages together with pipes and
optional file redirection.  We embed the pipeline-setup loop of `main`
(lines 180-340), the per-child redirection/exec block (lines 215-261),
the `cd` built-in (lines 125-176) and the `previousDir` initialization
(lines 41-51) as executable Lean definitions, and prove the spec's
claims about them.
-/

namespace Shell

/-- One parsed pipeline stage, as produced by the Tokenizer
    (`Tokenizer.h` interface used by `shell.cpp`): argument list,
    optional input/output redirection files, background flag. -/
structure Command where
  args : List String
  in_file : Option String
  out_file : Option String
  background : Bool
deriving DecidableEq, Repr, Inhabited

/-- `Command::hasInput()` : whether an input redirection file is present. -/
def Command.hasInput (c : Command) : Bool := c.in_file.isSome

/-- `Command::hasOutput()` : whether an output redirection file is present. -/
def Command.hasOutput (c : Command) : Bool := c.out_file.isSome

/-- `Command::isBackground()` : the background flag. -/
def Command.isBackground (c : Command) : Bool := c.background

/-- Identities of the file descriptors created by the parent during
    pipeline setup: the two ends of the pipe allocated at stage `i`
    (`pipe(pipeFd)` at line 199: `pipeFd[0]` = read end, `pipeFd[1]` =
    write end). -/
inductive Fd where
  | pipeRead (i : Nat)
  | pipeWrite (i : Nat)
deriving DecidableEq, Repr

/-- Outcomes of the system calls the setup loop performs, one per stage:
    whether `pipe()` (line 199) and `fork()` (line 206) succeed at
    stage `i`. -/
structure SysEnv where
  pipeOk : Nat → Bool
  forkOk : Nat → Bool

/-- An all-success system environment. -/
def allOk : SysEnv := { pipeOk := fun _ => true, forkOk := fun _ => true }

/-- Observable events of the parent-side setup loop
    (`shell.cpp` lines 192-293). -/
inductive PEv where
  | pipeCreated (i : Nat)
  | pipeFailed (i : Nat)
  | forked (i : Nat)
  | forkFailed (i : Nat)
  | closed (fd : Fd)
deriving DecidableEq, Repr

/-- Close of the carried-over read end of the previous stage's pipe:
    performed at lines 271-273 after a successful fork, and at
    lines 286-288 when setup fails with a pipe read end still dangling.
    `carry = some j` models `pipeInFd == pipeFd[0]` of pipe `j`;
    `carry = none` models `pipeInFd == STDIN_FILENO`. -/
def carriedReadClose (carry : Option Nat) : List PEv :=
  match carry with
  | none => []
  | some j => [PEv.closed (Fd.pipeRead j)]

/-- The pipeline-setup loop of `main` (lines 192-281) together with the
    post-loop dangling-descriptor cleanup (lines 285-288), as the list of
    events the parent performs.  `n` is `numCommands`, `i` the loop
    index, `fuel = n - i` the remaining iterations, `carry` the current
    `pipeInFd` (see `carriedReadClose`).  A failed `pipe()` or `fork()`
    sets `pipeline_setup_error` and `break`s, which here ends the
    recursion after the cleanup close. -/
def setupAux (env : SysEnv) (n : Nat) : Nat → Nat → Option Nat → List PEv
  | 0, _, _ => []
  | fuel + 1, i, carry =>
    if i + 1 = n then
      -- last stage: no pipe is allocated (line 198 guard)
      if env.forkOk i then
        -- lines 206, 264-273: fork, then close the carried read end
        PEv.forked i :: carriedReadClose carry
      else
        -- lines 207-211 (no pipe to close) and 285-288
        PEv.forkFailed i :: carriedReadClose carry
    else
      if env.pipeOk i then
        if env.forkOk i then
          -- lines 199, 206, 264-279: pipe, fork, close carried read end,
          -- close this pipe's write end, carry its read end forward
          PEv.pipeCreated i :: PEv.forked i ::
            (carriedReadClose carry ++
              PEv.closed (Fd.pipeWrite i) :: setupAux env n fuel (i + 1) (some i))
        else
          -- lines 207-212: close both ends of the just-created pipe,
          -- then lines 285-288 close the carried read end
          PEv.pipeCreated i :: PEv.forkFailed i ::
            PEv.closed (Fd.pipeRead i) :: PEv.closed (Fd.pipeWrite i) ::
              carriedReadClose carry
      else
        -- lines 199-203, then lines 285-288
        PEv.pipeFailed i :: carriedReadClose carry

/-- The full setup trace for an `n`-stage pipeline: the loop starts at
    `i = 0` with `pipeInFd = STDIN_FILENO` (line 187). -/
def setupTrace (env : SysEnv) (n : Nat) : List PEv :=
  setupAux env n n 0 none

/-- The pids recorded in `pipePids` (line 265), in fork order; we use the
    stage index as the pid. -/
def spawnedOf (t : List PEv) : List Nat :=
  t.filterMap fun e =>
    match e with
    | PEv.forked i => some i
    | _ => none

/-- Whether an event records a `pipe()` or `fork()` failure. -/
def isErrEv : PEv → Bool
  | PEv.pipeFailed _ => true
  | PEv.forkFailed _ => true
  | _ => false

/-- The `pipeline_setup_error` flag (line 190): set iff some stage's
    `pipe()` or `fork()` failed. -/
def hasSetupError (t : List PEv) : Bool := t.any isErrEv

/-- The canonical event sequence of a fully successful setup of stages
    `i..n-1`: at each non-last stage the parent creates the pipe, forks,
    closes the previous pipe's read end, closes the current pipe's write
    end; at the last stage it forks and closes the previous read end. -/
def successFrom (n : Nat) : Nat → Nat → List PEv
  | 0, _ => []
  | fuel + 1, i =>
    if i + 1 = n then
      PEv.forked i :: (if i = 0 then [] else [PEv.closed (Fd.pipeRead (i - 1))])
    else
      PEv.pipeCreated i :: PEv.forked i ::
        ((if i = 0 then [] else [PEv.closed (Fd.pipeRead (i - 1))]) ++
          PEv.closed (Fd.pipeWrite i) :: successFrom n fuel (i + 1))

/-- The canonical full-success trace for `n` stages. -/
def successTrace (n : Nat) : List PEv := successFrom n n 0

/-- Wait actions the parent performs after the setup loop:
    `waitpid(p, ..., 0)` (blocking, line 311) or
    `waitpid(p, ..., WNOHANG)` (non-blocking, lines 291 and 329). -/
inductive WaitEv where
  | blocking (pid : Nat)
  | nonblocking (pid : Nat)
deriving DecidableEq, Repr

/-- Result of the post-setup dispatch section (lines 285-333). -/
structure DispatchResult where
  waits : List WaitEv
  bgAdded : List Nat
  reportNum : Option Nat
deriving DecidableEq, Repr

/-- The post-setup dispatch of `main` (lines 290-332).  On setup error,
    every spawned child is reaped with `WNOHANG` (line 291) and nothing
    else happens.  Otherwise the background flag of the *last* command
    (line 298) decides: background adds all pids to `background_pids`
    and reports `[background_pids.size() + 1]` (lines 300-307);
    foreground blocks on the last pid and reaps the other stages with
    `WNOHANG` (lines 308-331). -/
def dispatch (cmds : List Command) (t : List PEv) (bgCount : Nat) : DispatchResult :=
  let pids := spawnedOf t
  if hasSetupError t then
    { waits := pids.map WaitEv.nonblocking, bgAdded := [], reportNum := none }
  else
    match pids.getLast? with
    | none => { waits := [], bgAdded := [], reportNum := none }
    | some lastPid =>
      if (cmds.getLastD default).isBackground then
        { waits := [], bgAdded := pids, reportNum := some (bgCount + 1) }
      else
        { waits := WaitEv.blocking lastPid ::
            (pids.filter fun p => p != lastPid).map WaitEv.nonblocking,
          bgAdded := [], reportNum := none }

/-! ### Child process model (`shell.cpp` lines 215-261) -/

/-- `EXIT_FAILURE` from `<cstdlib>`: the status the child passes to
    `exit()` on every error path (lines 221, 224, 225, 228, 238, 241,
    242, 245, 261). -/
def EXIT_FAILURE : Nat := 1

/-- File descriptors as seen from one child, relative to its stage:
    `prevRead` is the inherited read end of the previous stage's pipe
    (`pipeInFd`), `ownRead`/`ownWrite` are `pipeFd[0]`/`pipeFd[1]` of
    the pipe allocated for this stage, `inputFd`/`outputFd` are the
    descriptors returned by `open()` on the redirection files
    (lines 223 and 240).  For the child of stage `i`, `prevRead`
    corresponds to the parent-side `Fd.pipeRead (i-1)` and
    `ownRead`/`ownWrite` to `Fd.pipeRead i`/`Fd.pipeWrite i`. -/
inductive CFd where
  | prevRead
  | ownRead
  | ownWrite
  | inputFd
  | outputFd
deriving DecidableEq, Repr

/-- Outcomes of the system calls the child performs: whether
    `open(in_file)` (line 223), `open(out_file)` (line 240) and
    `execvp` (line 257) succeed. -/
structure ChildEnv where
  openInOk : Bool
  openOutOk : Bool
  execOk : Bool
deriving DecidableEq, Repr

/-- An all-success child environment. -/
def childAllOk : ChildEnv := { openInOk := true, openOutOk := true, execOk := true }

/-- How the child block ends: `exit(code)` before reaching `execvp`
    (configuration or open errors), a successful `execvp` (the image is
    replaced), or `execvp` returning, after which the child does
    `perror` and `exit(EXIT_FAILURE)` (lines 259-261). -/
inductive ChildOutcome where
  | exited (code : Nat)
  | execFailed (code : Nat)
  | execed
deriving DecidableEq, Repr

/-- What one child did: the explicit `close()` calls it made in order,
    the descriptors it obtained from `open()`, and how it ended. -/
structure ChildResult where
  closes : List CFd
  opened : List CFd
  outcome : ChildOutcome
deriving DecidableEq, Repr

/-- Lines 256-261: `execvp`, which on failure is followed by `perror`
    and `exit(EXIT_FAILURE)`. -/
def childExecPhase (cenv : ChildEnv) (closes opened : List CFd) : ChildResult :=
  if cenv.execOk then
    { closes := closes, opened := opened, outcome := ChildOutcome.execed }
  else
    { closes := closes, opened := opened, outcome := ChildOutcome.execFailed EXIT_FAILURE }

/-- Lines 233-250: the child's output redirection.  An output file on a
    non-last stage is a configuration error (lines 236-239); otherwise
    the file is opened, duplicated onto stdout and closed
    (lines 240-243); a non-last stage without an output file duplicates
    `pipeFd[1]` onto stdout and closes both ends of its pipe
    (lines 244-249). -/
def childOutputPhase (hasOut isLast : Bool) (cenv : ChildEnv)
    (closes opened : List CFd) : ChildResult :=
  if hasOut then
    if !isLast then
      { closes := closes, opened := opened, outcome := ChildOutcome.exited EXIT_FAILURE }
    else if !cenv.openOutOk then
      { closes := closes, opened := opened, outcome := ChildOutcome.exited EXIT_FAILURE }
    else
      childExecPhase cenv (closes ++ [CFd.outputFd]) (opened ++ [CFd.outputFd])
  else if !isLast then
    childExecPhase cenv (closes ++ [CFd.ownRead, CFd.ownWrite]) opened
  else
    childExecPhase cenv closes opened

/-- Lines 215-261, on booleans: the child's input phase.  An input file
    on a non-first stage is a configuration error (lines 219-222);
    otherwise the file is opened, duplicated onto stdin and closed
    (lines 223-226); a non-first stage without an input file duplicates
    `pipeInFd` onto stdin and closes it (lines 227-230). -/
def childRunCore (hasIn hasOut isFirst isLast : Bool) (cenv : ChildEnv) : ChildResult :=
  if hasIn then
    if !isFirst then
      { closes := [], opened := [], outcome := ChildOutcome.exited EXIT_FAILURE }
    else if !cenv.openInOk then
      { closes := [], opened := [], outcome := ChildOutcome.exited EXIT_FAILURE }
    else
      childOutputPhase hasOut isLast cenv [CFd.inputFd] [CFd.inputFd]
  else if !isFirst then
    childOutputPhase hasOut isLast cenv [CFd.prevRead] []
  else
    childOutputPhase hasOut isLast cenv [] []

/-- The child block of `main` (lines 215-261) for one stage.  Its
    behaviour depends on the command only through the presence of the
    redirection files; the file *names* are only passed to `open`, whose
    outcome is in `cenv`. -/
def childRun (cmd : Command) (isFirst isLast : Bool) (cenv : ChildEnv) : ChildResult :=
  childRunCore cmd.hasInput cmd.hasOutput isFirst isLast cenv

/-- The pipe descriptors a child inherits from the parent at fork time:
    the carried read end of the previous pipe (unless first stage) and
    both ends of its own pipe (unless last stage); see the parent-side
    bookkeeping at lines 187, 271-279. -/
def childInherited (isFirst isLast : Bool) : List CFd :=
  (if isFirst then [] else [CFd.prevRead]) ++
    (if isLast then [] else [CFd.ownRead, CFd.ownWrite])

/-- All descriptors a child is responsible for: inherited pipe ends plus
    the descriptors it opened itself. -/
def childPool (isFirst isLast : Bool) (r : ChildResult) : List CFd :=
  childInherited isFirst isLast ++ r.opened

/-- The descriptors of the pool still open when the child block ends
    (at `exit` or at `execvp`). -/
def stillOpenAt (isFirst isLast : Bool) (r : ChildResult) : List CFd :=
  (childPool isFirst isLast r).filter fun fd => !r.closes.contains fd

/-- All release actions on the child's descriptors: its explicit
    `close()` calls, plus — when the child terminates via `exit` —
    the operating system's close of every descriptor still open at
    process exit.  On the `execed` path nothing is released implicitly:
    a descriptor still open leaks into the new program image. -/
def childReleases (isFirst isLast : Bool) (r : ChildResult) : List CFd :=
  match r.outcome with
  | ChildOutcome.execed => r.closes
  | _ => r.closes ++ stillOpenAt isFirst isLast r

/-! ### Shell stdio backup/restore (`shell.cpp` lines 180-184, 335-340) -/

/-- Outcomes of the two `dup` calls backing up the shell's stdio
    (lines 181, 183). -/
structure DupEnv where
  dupInOk : Bool
  dupOutOk : Bool
deriving DecidableEq, Repr

/-- The shell process's standard streams and their backups: `fd0`/`fd1`
    are the targets of descriptors 0 and 1, `bakIn`/`bakOut` the targets
    held by `origStdin`/`origStdout` (`none` = not open). -/
structure StdioState (α : Type) where
  fd0 : α
  fd1 : α
  bakIn : Option α
  bakOut : Option α
deriving DecidableEq, Repr

/-- Effect of one parent-side setup event on the shell's own stdio
    state: none — the parent-side code of lines 192-333 contains no
    `dup2` onto descriptors 0 or 1 and closes only pipe descriptors
    (lines 272, 276), never 0, 1, `origStdin` or `origStdout`. -/
def stdioApplyEv {α : Type} (s : StdioState α) (_e : PEv) : StdioState α := s

/-- One full dispatch as seen by the shell's stdio: back up 0 and 1
    (lines 180-184; on a failed `dup` the iteration is abandoned with
    `continue` and nothing is dispatched), run the pipeline section, and
    restore and close the backups (lines 335-340).  Returns the final
    state and whether a dispatch happened. -/
def runStdio {α : Type} (de : DupEnv) (env : SysEnv) (n : Nat)
    (s : StdioState α) : StdioState α × Bool :=
  if !de.dupInOk then
    (s, false)
  else if !de.dupOutOk then
    (s, false)
  else
    let s1 : StdioState α := { s with bakIn := some s.fd0, bakOut := some s.fd1 }
    let s2 := (setupTrace env n).foldl stdioApplyEv s1
    let s3 : StdioState α :=
      { fd0 := s2.bakIn.getD s2.fd0, fd1 := s2.bakOut.getD s2.fd1,
        bakIn := none, bakOut := none }
    (s3, true)

/-! ### The `cd` built-in (`shell.cpp` lines 125-176) -/

/-- Whether the line is handled by the `cd` built-in: the first
    command's first argument is `"cd"` (line 125). -/
def cdApplies (cmds : List Command) : Bool :=
  match cmds with
  | [] => false
  | c :: _ => c.args.headD "" == "cd"

/-- What the `cd` built-in decides to do (lines 126-157): reject a
    pipeline, reject a background `cd`, report `HOME` unset, report no
    previous directory, or attempt `chdir` to a target (recording
    whether the argument was `-`, which controls the later print at
    lines 166-173). -/
inductive CdAction where
  | rejectPipeline
  | rejectBackground
  | errHomeUnset
  | errNoPrev
  | chdirTo (target : String) (isDash : Bool)
deriving DecidableEq, Repr

/-- The decision logic of the `cd` built-in (lines 126-157), given the
    command list, the `HOME` environment variable, and the current
    `previousDir` value. -/
def cdDecide (cmds : List Command) (home : Option String) (previousDir : String) :
    CdAction :=
  let c0 := cmds.headD default
  if 1 < cmds.length then
    CdAction.rejectPipeline
  else if c0.isBackground then
    CdAction.rejectBackground
  else if c0.args.length < 2 then
    match home with
    | none => CdAction.errHomeUnset
    | some h => CdAction.chdirTo h false
  else if c0.args.getD 1 "" = "-" then
    if previousDir = "" then CdAction.errNoPrev
    else CdAction.chdirTo previousDir true
  else
    CdAction.chdirTo (c0.args.getD 1 "") false

/-- Result of attempting the directory change (lines 138-174). -/
structure CdExecResult where
  newPrev : String
  printed : Bool
  errReported : Bool
deriving DecidableEq, Repr

/-- The `chdir` attempt and its bookkeeping (lines 138-174):
    `getcwdBefore` is the `getcwd` capture at line 140 (`none` = call
    failed, giving `currentDir = ""`); on `chdir` failure only an error
    is reported (lines 159-160); on success `previousDir` becomes the
    captured directory when that capture is non-empty (lines 162-164),
    and on the `-` path the resulting directory is printed when the
    second `getcwd` (line 168) succeeds, else an error is reported
    (line 171). -/
def cdExec (chdirOk : Bool) (getcwdBefore getcwdAfter : Option String)
    (previousDir : String) (isDash : Bool) : CdExecResult :=
  let currentDir := getcwdBefore.getD ""
  if !chdirOk then
    { newPrev := previousDir, printed := false, errReported := true }
  else
    { newPrev := if currentDir = "" then previousDir else currentDir,
      printed := isDash && getcwdAfter.isSome,
      errReported := isDash && getcwdAfter.isNone }

/-- Number of children forked while handling one input line: the `cd`
    path `continue`s at line 175 before the fork loop, so it spawns
    nothing; otherwise the pipeline loop runs. -/
def lineSpawnCount (cmds : List Command) (env : SysEnv) : Nat :=
  if cdApplies cmds then 0
  else (spawnedOf (setupTrace env cmds.length)).length

/-! ### Startup initialization of `previousDir` (`shell.cpp` lines 41-51) -/

/-- The initial `previousDir` value: the `PWD` environment variable when
    set (lines 42-44), else the result of `getcwd` (lines 46-50), else
    the global initializer `""` (line 27). -/
def initPrevDir (pwdEnv : Option String) (cwdRes : Option String) : String :=
  match pwdEnv with
  | some s => s
  | none =>
    match cwdRes with
    | some c => c
    | none => ""

/-! ### Background job bookkeeping (`shell.cpp` lines 28, 300-307) -/

/-- The sequence number printed when a pipeline is dispatched in the
    background: `background_pids.size() + 1` (line 302), where
    `background_pids` holds one entry per spawned process. -/
def backgroundReportNumber (bgPids : List Nat) : Nat := bgPids.length + 1

/-- The `background_pids` list after a background dispatch: all pids of
    the pipeline are appended (lines 303-306). -/
def bgAfterDispatch (bgPids stagePids : List Nat) : List Nat := bgPids ++ stagePids

/-- The spec's notion of outstanding background *jobs*: one per
    dispatched background pipeline still outstanding. -/
def outstandingJobs (jobs : List (List Nat)) : Nat := jobs.length

/-- The flat `background_pids` contents corresponding to a list of
    outstanding jobs none of whose processes has been reaped yet. -/
def bgPidsOfJobs (jobs : List (List Nat)) : List Nat := jobs.flatten

/-! ### Exec-failure status (`shell.cpp` lines 256-261) -/

/-- The set of exit statuses available to a program that ran and itself
    returned a non-zero status (any of 1..255). -/
def ranAndFailedStatus (s : Nat) : Prop := 1 ≤ s ∧ s ≤ 255

/-- A command with no redirections, used for concrete instantiations. -/
def plainCmd : Command :=
  { args := ["prog"], in_file := none, out_file := none, background := false }

/-- The claim that the exec-failure exit status is distinguishable from
    every status of a program that ran and itself failed: for a plain
    single command whose `execvp` fails, no ran-and-failed status
    coincides with the child's exec-failure status. -/
def execFailureDistinguishable : Prop :=
  ∀ s, ranAndFailedStatus s →
    (childRun plainCmd true true
        { openInOk := true, openOutOk := true, execOk := false }).outcome ≠
      ChildOutcome.execFailed s

/-! ### Structural lemmas about the setup trace -/

lemma carriedReadClose_count_read (carry : Option Nat) (j : Nat) :
    (carriedReadClose carry).count (PEv.closed (Fd.pipeRead j)) =
      if carry = some j then 1 else 0 := by
  cases carry with
  | none => simp [carriedReadClose]
  | some c =>
    by_cases h : c = j
    · subst h; simp [carriedReadClose]
    · simp [carriedReadClose, List.count_singleton', h, Ne.symm h]

lemma carriedReadClose_count_write (carry : Option Nat) (j : Nat) :
    (carriedReadClose carry).count (PEv.closed (Fd.pipeWrite j)) = 0 := by
  cases carry <;> simp [carriedReadClose, List.count_singleton']

lemma carriedReadClose_no_created (carry : Option Nat) (j : Nat) :
    PEv.pipeCreated j ∉ carriedReadClose carry := by
  cases carry <;> simp [carriedReadClose]

lemma carriedReadClose_spawned (carry : Option Nat) :
    spawnedOf (carriedReadClose carry) = [] := by
  cases carry <;> simp [carriedReadClose, spawnedOf]

lemma carriedReadClose_no_error (carry : Option Nat) :
    hasSetupError (carriedReadClose carry) = false := by
  cases carry <;> simp [carriedReadClose, hasSetupError, isErrEv]

lemma setupAux_created_lb (env : SysEnv) (n : Nat) :
    ∀ fuel i carry j, PEv.pipeCreated j ∈ setupAux env n fuel i carry → i ≤ j := by
  intro fuel
  induction fuel with
  | zero => intro i carry j h; simp [setupAux] at h
  | succ fuel ih =>
    intro i carry j h
    by_cases hL : i + 1 = n
    · rw [setupAux, if_pos hL] at h
      by_cases hF : env.forkOk i = true
      · rw [if_pos hF] at h
        simp only [List.mem_cons] at h
        rcases h with h | h
        · exact absurd h (by simp)
        · exact absurd h (carriedReadClose_no_created carry j)
      · rw [if_neg hF] at h
        simp only [List.mem_cons] at h
        rcases h with h | h
        · exact absurd h (by simp)
        · exact absurd h (carriedReadClose_no_created carry j)
    · rw [setupAux, if_neg hL] at h
      by_cases hP : env.pipeOk i = true
      · rw [if_pos hP] at h
        by_cases hF : env.forkOk i = true
        · rw [if_pos hF] at h
          simp only [List.mem_cons, List.mem_append] at h
          rcases h with h | h | h | h | h
          · cases h; omega
          · exact absurd h (by simp)
          · exact absurd h (carriedReadClose_no_created carry j)
          · exact absurd h (by simp)
          · exact Nat.le_of_succ_le (ih (i + 1) (some i) j h)
        · rw [if_neg hF] at h
          simp only [List.mem_cons] at h
          rcases h with h | h | h | h | h
          · cases h; omega
          · exact absurd h (by simp)
          · exact absurd h (by simp)
          · exact absurd h (by simp)
          · exact absurd h (carriedReadClose_no_created carry j)
      · rw [if_neg hP] at h
        simp only [List.mem_cons] at h
        rcases h with h | h
        · exact absurd h (by simp)
        · exact absurd h (carriedReadClose_no_created carry j)

lemma setupAux_count_read (env : SysEnv) (n : Nat) :
    ∀ fuel i carry j, (∀ c, carry = some c → c < i) → 0 < fuel → i + fuel = n →
      (setupAux env n fuel i carry).count (PEv.closed (Fd.pipeRead j)) =
        (if carry = some j then 1 else 0) +
          (if PEv.pipeCreated j ∈ setupAux env n fuel i carry then 1 else 0) := by
  intro fuel
  induction fuel with
  | zero => intro i carry j _ hpos _; omega
  | succ fuel ih =>
    intro i carry j hcarry _ hfuel
    by_cases hL : i + 1 = n
    · rw [setupAux, if_pos hL]
      by_cases hF : env.forkOk i = true
      · rw [if_pos hF]
        have hnc : PEv.pipeCreated j ∉ PEv.forked i :: carriedReadClose carry := by
          simp only [List.mem_cons]
          rintro (h | h)
          · exact absurd h (by simp)
          · exact carriedReadClose_no_created carry j h
        simp only [List.count_cons, carriedReadClose_count_read, if_neg hnc]
        simp
      · rw [if_neg hF]
        have hnc : PEv.pipeCreated j ∉ PEv.forkFailed i :: carriedReadClose carry := by
          simp only [List.mem_cons]
          rintro (h | h)
          · exact absurd h (by simp)
          · exact carriedReadClose_no_created carry j h
        simp only [List.count_cons, carriedReadClose_count_read, if_neg hnc]
        simp
    · rw [setupAux, if_neg hL]
      by_cases hP : env.pipeOk i = true
      · rw [if_pos hP]
        by_cases hF : env.forkOk i = true
        · rw [if_pos hF]
          have hpos' : 0 < fuel := by omega
          have ihr := ih (i + 1) (some i) j
            (by intro c hc; injection hc with hc; omega) hpos' (by omega)
          have hlb := setupAux_created_lb env n fuel (i + 1) (some i) j
          have hmem : (PEv.pipeCreated j ∈ PEv.pipeCreated i :: PEv.forked i ::
              (carriedReadClose carry ++ PEv.closed (Fd.pipeWrite i) ::
                setupAux env n fuel (i + 1) (some i))) ↔
              (j = i ∨ PEv.pipeCreated j ∈ setupAux env n fuel (i + 1) (some i)) := by
            simp only [List.mem_cons, List.mem_append]
            constructor
            · rintro (h | h | h | h | h)
              · exact Or.inl (by cases h; rfl)
              · exact absurd h (by simp)
              · exact absurd h (carriedReadClose_no_created carry j)
              · exact absurd h (by simp)
              · exact Or.inr h
            · rintro (rfl | h)
              · exact Or.inl rfl
              · exact Or.inr (Or.inr (Or.inr (Or.inr h)))
          rw [if_congr hmem rfl rfl]
          simp only [List.count_cons, List.count_append, carriedReadClose_count_read]
          rw [ihr]
          by_cases hcj : carry = some j
          · have hji : j < i := hcarry j hcj
            by_cases hrec : PEv.pipeCreated j ∈ setupAux env n fuel (i + 1) (some i)
            · exact absurd (hlb hrec) (by omega)
            · have h1 : (some i = some j) = False := by simp; omega
              simp [hcj, hrec, h1]
              omega
          · by_cases hji : j = i
            · subst hji
              have hrec : PEv.pipeCreated j ∉ setupAux env n fuel (j + 1) (some j) :=
                fun h => absurd (hlb h) (by omega)
              simp [hcj, hrec]
            · by_cases hrec : PEv.pipeCreated j ∈ setupAux env n fuel (i + 1) (some i)
              · have h1 : (some i = some j) = False := by
                  simp; omega
                simp [hcj, hrec, h1, hji]
              · have h1 : (some i = some j) = False := by
                  simp
                  intro h; exact absurd h.symm hji
                simp [hcj, hrec, h1, hji]
        · rw [if_neg hF]
          have hnc : PEv.pipeCreated j ∈
              PEv.pipeCreated i :: PEv.forkFailed i :: PEv.closed (Fd.pipeRead i) ::
                PEv.closed (Fd.pipeWrite i) :: carriedReadClose carry ↔ j = i := by
            simp only [List.mem_cons]
            constructor
            · rintro (h | h | h | h | h)
              · cases h; rfl
              · exact absurd h (by simp)
              · exact absurd h (by simp)
              · exact absurd h (by simp)
              · exact absurd h (carriedReadClose_no_created carry j)
            · rintro rfl; exact Or.inl rfl
          simp only [List.count_cons, carriedReadClose_count_read, hnc]
          by_cases hji : j = i
          · subst hji
            have : carry ≠ some j := fun h => absurd (hcarry j h) (by omega)
            simp [this]
          · simp [hji, Ne.symm hji]
      · rw [if_neg hP]
        have hnc : PEv.pipeCreated j ∉ PEv.pipeFailed i :: carriedReadClose carry := by
          simp only [List.mem_cons]
          rintro (h | h)
          · exact absurd h (by simp)
          · exact carriedReadClose_no_created carry j h
        simp only [List.count_cons, carriedReadClose_count_read, if_neg hnc]
        simp

lemma setupAux_count_write (env : SysEnv) (n : Nat) :
    ∀ fuel i carry j,
      (setupAux env n fuel i carry).count (PEv.closed (Fd.pipeWrite j)) =
        (if PEv.pipeCreated j ∈ setupAux env n fuel i carry then 1 else 0) := by
  intro fuel
  induction fuel with
  | zero => intro i carry j; simp [setupAux]
  | succ fuel ih =>
    intro i carry j
    by_cases hL : i + 1 = n
    · rw [setupAux, if_pos hL]
      by_cases hF : env.forkOk i = true
      · rw [if_pos hF]
        have hnc : PEv.pipeCreated j ∉ PEv.forked i :: carriedReadClose carry := by
          simp only [List.mem_cons]
          rintro (h | h)
          · exact absurd h (by simp)
          · exact carriedReadClose_no_created carry j h
        simp only [List.count_cons, carriedReadClose_count_write, if_neg hnc]
        simp
      · rw [if_neg hF]
        have hnc : PEv.pipeCreated j ∉ PEv.forkFailed i :: carriedReadClose carry := by
          simp only [List.mem_cons]
          rintro (h | h)
          · exact absurd h (by simp)
          · exact carriedReadClose_no_created carry j h
        simp only [List.count_cons, carriedReadClose_count_write, if_neg hnc]
        simp
    · rw [setupAux, if_neg hL]
      by_cases hP : env.pipeOk i = true
      · rw [if_pos hP]
        by_cases hF : env.forkOk i = true
        · rw [if_pos hF]
          have hlb := setupAux_created_lb env n fuel (i + 1) (some i) j
          have hmem : (PEv.pipeCreated j ∈ PEv.pipeCreated i :: PEv.forked i ::
              (carriedReadClose carry ++ PEv.closed (Fd.pipeWrite i) ::
                setupAux env n fuel (i + 1) (some i))) ↔
              (j = i ∨ PEv.pipeCreated j ∈ setupAux env n fuel (i + 1) (some i)) := by
            simp only [List.mem_cons, List.mem_append]
            constructor
            · rintro (h | h | h | h | h)
              · exact Or.inl (by cases h; rfl)
              · exact absurd h (by simp)
              · exact absurd h (carriedReadClose_no_created carry j)
              · exact absurd h (by simp)
              · exact Or.inr h
            · rintro (rfl | h)
              · exact Or.inl rfl
              · exact Or.inr (Or.inr (Or.inr (Or.inr h)))
          rw [if_congr hmem rfl rfl]
          simp only [List.count_cons, List.count_append, carriedReadClose_count_write]
          rw [ih (i + 1) (some i) j]
          by_cases hji : j = i
          · subst hji
            have hrec : PEv.pipeCreated j ∉ setupAux env n fuel (j + 1) (some j) :=
              fun h => absurd (hlb h) (by omega)
            simp [hrec]
          · by_cases hrec : PEv.pipeCreated j ∈ setupAux env n fuel (i + 1) (some i)
            · simp [hrec, hji, Ne.symm hji]
            · simp [hrec, hji, Ne.symm hji]
        · rw [if_neg hF]
          have hnc : PEv.pipeCreated j ∈
              PEv.pipeCreated i :: PEv.forkFailed i :: PEv.closed (Fd.pipeRead i) ::
                PEv.closed (Fd.pipeWrite i) :: carriedReadClose carry ↔ j = i := by
            simp only [List.mem_cons]
            constructor
            · rintro (h | h | h | h | h)
              · cases h; rfl
              · exact absurd h (by simp)
              · exact absurd h (by simp)
              · exact absurd h (by simp)
              · exact absurd h (carriedReadClose_no_created carry j)
            · rintro rfl; exact Or.inl rfl
          rw [if_congr hnc rfl rfl]
          simp only [List.count_cons, carriedReadClose_count_write]
          by_cases hji : j = i
          · subst hji; simp
          · simp [hji, Ne.symm hji]
      · rw [if_neg hP]
        have hnc : PEv.pipeCreated j ∉ PEv.pipeFailed i :: carriedReadClose carry := by
          simp only [List.mem_cons]
          rintro (h | h)
          · exact absurd h (by simp)
          · exact carriedReadClose_no_created carry j h
        simp only [List.count_cons, carriedReadClose_count_write, if_neg hnc]
        simp

lemma setupAux_spawned_ok (env : SysEnv) (n : Nat) :
    ∀ fuel i carry, i + fuel = n →
      hasSetupError (setupAux env n fuel i carry) = false →
      spawnedOf (setupAux env n fuel i carry) = List.range' i fuel := by
  intro fuel
  induction fuel with
  | zero => intro i carry _ _; simp [setupAux, spawnedOf]
  | succ fuel ih =>
    intro i carry hfuel herr
    by_cases hL : i + 1 = n
    · rw [setupAux, if_pos hL] at herr ⊢
      by_cases hF : env.forkOk i = true
      · rw [if_pos hF] at herr ⊢
        have hfz : fuel = 0 := by omega
        subst hfz
        simp [spawnedOf, List.range']
        cases carry <;> simp [carriedReadClose, spawnedOf]
      · rw [if_neg hF] at herr
        simp [hasSetupError, isErrEv] at herr
    · rw [setupAux, if_neg hL] at herr ⊢
      by_cases hP : env.pipeOk i = true
      · rw [if_pos hP] at herr ⊢
        by_cases hF : env.forkOk i = true
        · rw [if_pos hF] at herr ⊢
          have herr' : hasSetupError (setupAux env n fuel (i + 1) (some i)) = false := by
            simp only [hasSetupError, List.any_cons, List.any_append,
              Bool.or_eq_false_iff] at herr
            exact herr.2.2.2.2
          have := ih (i + 1) (some i) (by omega) herr'
          simp only [spawnedOf, List.filterMap_cons, List.filterMap_append] at this ⊢
          rw [List.range'_succ]
          cases carry <;> simp [carriedReadClose, this]
        · rw [if_neg hF] at herr
          simp [hasSetupError, isErrEv] at herr
      · rw [if_neg hP] at herr
        simp [hasSetupError, isErrEv] at herr

lemma setupAux_spawned_err (env : SysEnv) (n : Nat) :
    ∀ fuel i carry, i + fuel = n →
      hasSetupError (setupAux env n fuel i carry) = true →
      ∃ k, i ≤ k ∧ k < n ∧
        spawnedOf (setupAux env n fuel i carry) = List.range' i (k - i) ∧
        (PEv.pipeFailed k ∈ setupAux env n fuel i carry ∨
          PEv.forkFailed k ∈ setupAux env n fuel i carry) ∧
        (∀ j, PEv.pipeCreated j ∈ setupAux env n fuel i carry → j ≤ k) := by
  intro fuel
  induction fuel with
  | zero => intro i carry _ herr; simp [setupAux, hasSetupError] at herr
  | succ fuel ih =>
    intro i carry hfuel herr
    by_cases hL : i + 1 = n
    · rw [setupAux, if_pos hL] at herr ⊢
      by_cases hF : env.forkOk i = true
      · rw [if_pos hF] at herr
        exfalso
        simp only [hasSetupError, List.any_cons, Bool.or_eq_true] at herr
        rcases herr with h | h
        · simp [isErrEv] at h
        · have hce := carriedReadClose_no_error carry
          simp only [hasSetupError] at hce
          rw [hce] at h
          exact absurd h (by simp)
      · rw [if_neg hF] at herr ⊢
        refine ⟨i, le_refl i, by omega, ?_, Or.inr (List.mem_cons_self _ _), ?_⟩
        · simp [spawnedOf, carriedReadClose_spawned]
          cases carry <;> simp [carriedReadClose, spawnedOf]
        · intro j hj
          rcases List.mem_cons.1 hj with h | h
          · exact absurd h (by simp)
          · exact absurd h (carriedReadClose_no_created carry j)
    · rw [setupAux, if_neg hL] at herr ⊢
      by_cases hP : env.pipeOk i = true
      · rw [if_pos hP] at herr ⊢
        by_cases hF : env.forkOk i = true
        · rw [if_pos hF] at herr ⊢
          have herr' : hasSetupError (setupAux env n fuel (i + 1) (some i)) = true := by
            simp only [hasSetupError, List.any_cons, List.any_append,
              Bool.or_eq_true] at herr ⊢
            rcases herr with h | h | h | h | h
            · simp [isErrEv] at h
            · simp [isErrEv] at h
            · have hce := carriedReadClose_no_error carry
              simp only [hasSetupError] at hce
              rw [hce] at h
              exact absurd h (by simp)
            · simp [isErrEv] at h
            · exact h
          obtain ⟨k, hik, hkn, hsp, hfail, hcr⟩ := ih (i + 1) (some i) (by omega) herr'
          refine ⟨k, by omega, hkn, ?_, ?_, ?_⟩
          · simp only [spawnedOf, List.filterMap_cons, List.filterMap_append]
            simp [spawnedOf] at hsp
            have hr : List.range' i (k - i) = i :: List.range' (i + 1) (k - (i + 1)) := by
              have h1 : k - i = (k - (i + 1)) + 1 := by omega
              rw [h1, List.range'_succ]
            rw [hr]
            cases carry <;> simp [carriedReadClose, hsp]
          · rcases hfail with h | h
            · exact Or.inl (by
                simp only [List.mem_cons, List.mem_append]
                exact Or.inr (Or.inr (Or.inr (Or.inr h))))
            · exact Or.inr (by
                simp only [List.mem_cons, List.mem_append]
                exact Or.inr (Or.inr (Or.inr (Or.inr h))))
          · intro j hj
            simp only [List.mem_cons, List.mem_append] at hj
            rcases hj with h | h | h | h | h
            · cases h; omega
            · exact absurd h (by simp)
            · exact absurd h (carriedReadClose_no_created carry j)
            · exact absurd h (by simp)
            · exact hcr j h
        · rw [if_neg hF] at herr ⊢
          refine ⟨i, le_refl i, by omega, ?_,
            Or.inr (by simp), ?_⟩
          · simp [spawnedOf, carriedReadClose_spawned]
            cases carry <;> simp [carriedReadClose, spawnedOf]
          · intro j hj
            simp only [List.mem_cons] at hj
            rcases hj with h | h | h | h | h
            · cases h; omega
            · exact absurd h (by simp)
            · exact absurd h (by simp)
            · exact absurd h (by simp)
            · exact absurd h (carriedReadClose_no_created carry j)
      · rw [if_neg hP] at herr ⊢
        refine ⟨i, le_refl i, by omega, ?_, Or.inl (List.mem_cons_self _ _), ?_⟩
        · simp [spawnedOf, carriedReadClose_spawned]
          cases carry <;> simp [carriedReadClose, spawnedOf]
        · intro j hj
          rcases List.mem_cons.1 hj with h | h
          · exact absurd h (by simp)
          · exact absurd h (carriedReadClose_no_created carry j)

lemma setupAux_success_eq (env : SysEnv) (n : Nat)
    (hp : ∀ j, j + 1 < n → env.pipeOk j = true)
    (hf : ∀ j, j < n → env.forkOk j = true) :
    ∀ fuel i, i + fuel = n → 0 < fuel →
      setupAux env n fuel i (if i = 0 then none else some (i - 1)) =
        successFrom n fuel i := by
  intro fuel
  induction fuel with
  | zero => intro i _ hpos; omega
  | succ fuel ih =>
    intro i hfuel _
    by_cases hL : i + 1 = n
    · rw [setupAux, if_pos hL, successFrom, if_pos hL, if_pos (hf i (by omega))]
      by_cases h0 : i = 0 <;> simp [h0, carriedReadClose]
    · rw [setupAux, if_neg hL, successFrom,
        if_neg hL, if_pos (hp i (by omega)), if_pos (hf i (by omega))]
      have hrec := ih (i + 1) (by omega) (by omega)
      rw [if_neg (by omega : ¬i + 1 = 0)] at hrec
      simp only [Nat.add_sub_cancel] at hrec
      rw [hrec]
      by_cases h0 : i = 0 <;> simp [h0, carriedReadClose]

lemma range_getLast? (n : Nat) (hn : 0 < n) :
    (List.range n).getLast? = some (n - 1) := by
  obtain ⟨m, rfl⟩ : ∃ m, n = m + 1 := ⟨n - 1, by omega⟩
  rw [List.range_succ, List.getLast?_concat]
  simp

lemma range_filter_ne_last (n : Nat) (hn : 0 < n) :
    (List.range n).filter (fun p => p != (n - 1)) = List.range (n - 1) := by
  obtain ⟨m, rfl⟩ : ∃ m, n = m + 1 := ⟨n - 1, by omega⟩
  rw [List.range_succ, List.filter_append]
  simp only [Nat.add_sub_cancel]
  have h1 : (List.range m).filter (fun p => p != m) = List.range m := by
    apply List.filter_eq_self.mpr
    intro a ha
    have := List.mem_range.1 ha
    simp [bne_iff_ne]
    omega
  rw [h1]
  simp

/-! ### The claims -/

/-- C1: for every pipeline, each descriptor created during setup — the
    two ends of every inter-stage pipe and any redirection descriptor —
    is closed exactly once in every process that does not need it, on
    every code path (pipe-failure, fork-failure, open-failure and
    redirection-violation paths included).  Parent side: each created
    pipe's read and write end is closed exactly once across the whole
    trace (error paths included), and on the all-success path the trace
    is exactly the canonical one, in which the parent closes each pipe's
    write end right after forking its stage and each pipe's read end
    right after forking the following stage.  Child side: every
    descriptor the child inherits or opens is released exactly once
    (explicit `close`, or the close at process exit on the error paths),
    and a child that reaches `execvp` successfully has already closed
    every pipe descriptor, so none leaks into the new image. -/
theorem C1_fd_close_discipline (env : SysEnv) (n : Nat) (hn : 0 < n)
    (cmd : Command) (isFirst isLast : Bool) (cenv : ChildEnv) :
    (∀ j, (setupTrace env n).count (PEv.closed (Fd.pipeRead j)) =
        if PEv.pipeCreated j ∈ setupTrace env n then 1 else 0) ∧
    (∀ j, (setupTrace env n).count (PEv.closed (Fd.pipeWrite j)) =
        if PEv.pipeCreated j ∈ setupTrace env n then 1 else 0) ∧
    ((∀ j, j + 1 < n → env.pipeOk j = true) → (∀ j, j < n → env.forkOk j = true) →
      setupTrace env n = successTrace n) ∧
    (∀ fd, fd ∈ childPool isFirst isLast (childRun cmd isFirst isLast cenv) →
      (childReleases isFirst isLast (childRun cmd isFirst isLast cenv)).count fd = 1) ∧
    ((childRun cmd isFirst isLast cenv).outcome = ChildOutcome.execed →
      stillOpenAt isFirst isLast (childRun cmd isFirst isLast cenv) = []) := by
  have hchild : ∀ (hin hout isF isL a b c : Bool),
      (∀ fd, fd ∈ childPool isF isL (childRunCore hin hout isF isL ⟨a, b, c⟩) →
        (childReleases isF isL (childRunCore hin hout isF isL ⟨a, b, c⟩)).count fd = 1) ∧
      ((childRunCore hin hout isF isL ⟨a, b, c⟩).outcome = ChildOutcome.execed →
        stillOpenAt isF isL (childRunCore hin hout isF isL ⟨a, b, c⟩) = []) := by
    decide
  obtain ⟨a, b, c⟩ := cenv
  refine ⟨?_, ?_, ?_, (hchild cmd.hasInput cmd.hasOutput isFirst isLast a b c).1,
    (hchild cmd.hasInput cmd.hasOutput isFirst isLast a b c).2⟩
  · intro j
    have := setupAux_count_read env n n 0 none j (by intro c hc; cases hc) hn (by omega)
    simpa [setupTrace] using this
  · intro j
    exact setupAux_count_write env n n 0 none j
  · intro hp hf
    have := setupAux_success_eq env n hp hf n 0 (by omega) hn
    simpa [setupTrace, successTrace] using this

/-- Witness for C1 at a concrete pipeline: three stages, all system
    calls succeeding; the setup trace is the canonical one. -/
theorem C1_fd_close_discipline_witness :
    setupTrace allOk 3 = successTrace 3 :=
  (C1_fd_close_discipline allOk 3 (by decide) plainCmd true false childAllOk).2.2.1
    (fun _ _ => rfl) (fun _ _ => rfl)

/-- C2: if `pipe()` or `fork()` fails at any stage, the coordinator
    aborts setup of all remaining stages (some stage `k` failed, only
    stages `0..k-1` were forked, no pipe beyond stage `k` was created),
    reaps every already-spawned child with a non-blocking `waitpid`
    only, closes every created pipe descriptor exactly once (the
    carried-over read end and, on fork failure, both ends of the
    just-created pipe included), and performs no blocking wait. -/
theorem C2_setup_failure_handling (env : SysEnv) (n : Nat) (cmds : List Command)
    (bgCount : Nat) (hn : 0 < n)
    (hfail : hasSetupError (setupTrace env n) = true) :
    (dispatch cmds (setupTrace env n) bgCount).waits =
        (spawnedOf (setupTrace env n)).map WaitEv.nonblocking ∧
    (∀ p, WaitEv.blocking p ∉ (dispatch cmds (setupTrace env n) bgCount).waits) ∧
    (dispatch cmds (setupTrace env n) bgCount).bgAdded = [] ∧
    (dispatch cmds (setupTrace env n) bgCount).reportNum = none ∧
    (∃ k, k < n ∧
      (PEv.pipeFailed k ∈ setupTrace env n ∨ PEv.forkFailed k ∈ setupTrace env n) ∧
      spawnedOf (setupTrace env n) = List.range k ∧
      (∀ j, PEv.pipeCreated j ∈ setupTrace env n → j ≤ k)) ∧
    (∀ j, PEv.pipeCreated j ∈ setupTrace env n →
      (setupTrace env n).count (PEv.closed (Fd.pipeRead j)) = 1 ∧
      (setupTrace env n).count (PEv.closed (Fd.pipeWrite j)) = 1) := by
  refine ⟨?_, ?_, ?_, ?_, ?_, ?_⟩
  · simp [dispatch, hfail]
  · intro p
    simp [dispatch, hfail]
  · simp [dispatch, hfail]
  · simp [dispatch, hfail]
  · obtain ⟨k, h0k, hkn, hsp, hf, hcr⟩ :=
      setupAux_spawned_err env n n 0 none (by omega) hfail
    refine ⟨k, hkn, hf, ?_, hcr⟩
    simp only [setupTrace]
    rw [hsp, List.range_eq_range']
    simp
  · intro j hj
    constructor
    · have := setupAux_count_read env n n 0 none j (by intro c hc; cases hc) hn (by omega)
      simp only [setupTrace] at hj ⊢
      rw [this, if_pos hj]
      simp
    · have := setupAux_count_write env n n 0 none j
      simp only [setupTrace] at hj ⊢
      rw [this, if_pos hj]

/-- A system environment whose `pipe()` fails at stage 1. -/
def pipeFailAt1 : SysEnv := { pipeOk := fun i => i != 1, forkOk := fun _ => true }

/-- Witness for C2 at a concrete failing pipeline: three stages with the
    second stage's `pipe()` failing; the only waits are non-blocking
    reaps of the spawned children. -/
theorem C2_setup_failure_handling_witness :
    (dispatch [plainCmd, plainCmd, plainCmd] (setupTrace pipeFailAt1 3) 0).waits =
      (spawnedOf (setupTrace pipeFailAt1 3)).map WaitEv.nonblocking :=
  (C2_setup_failure_handling pipeFailAt1 3 [plainCmd, plainCmd, plainCmd] 0
    (by decide) (by decide)).1

/-- C8: the background disposition of a pipeline is read from the last
    command descriptor and applies to all stages together.  With the
    flag set the dispatch performs no wait at all and adds every stage's
    pid to the background list (reporting one sequence number); with the
    flag clear it blocks on the last stage's pid only and reaps all
    other stages non-blockingly, adding nothing to the background
    list. -/
theorem C8_background_disposition (env : SysEnv) (cmds : List Command)
    (bgCount : Nat) (n : Nat) (hlen : cmds.length = n) (hn : 0 < n)
    (hok : hasSetupError (setupTrace env n) = false) :
    ((cmds.getLastD default).isBackground = true →
      (dispatch cmds (setupTrace env n) bgCount).waits = [] ∧
      (dispatch cmds (setupTrace env n) bgCount).bgAdded = List.range n ∧
      (dispatch cmds (setupTrace env n) bgCount).reportNum = some (bgCount + 1)) ∧
    ((cmds.getLastD default).isBackground = false →
      (dispatch cmds (setupTrace env n) bgCount).waits =
        WaitEv.blocking (n - 1) :: (List.range (n - 1)).map WaitEv.nonblocking ∧
      (dispatch cmds (setupTrace env n) bgCount).bgAdded = [] ∧
      (dispatch cmds (setupTrace env n) bgCount).reportNum = none) := by
  have hsp : spawnedOf (setupTrace env n) = List.range n := by
    have h1 := setupAux_spawned_ok env n n 0 none (by omega) hok
    simp only [setupTrace]
    rw [h1, List.range_eq_range']
  have hlast : (spawnedOf (setupTrace env n)).getLast? = some (n - 1) := by
    rw [hsp]; exact range_getLast? n hn
  constructor
  · intro hbg
    simp only [List.getLastD_eq_getLast?] at hbg
    simp [dispatch, hok, hsp, range_getLast? n hn, hbg]
  · intro hbg
    simp only [List.getLastD_eq_getLast?] at hbg
    simp [dispatch, hok, hsp, range_getLast? n hn, hbg, range_filter_ne_last n hn]

/-- A background command with no redirections. -/
def bgCmd : Command :=
  { args := ["sleep"], in_file := none, out_file := none, background := true }

/-- Witness for C8 at a concrete two-stage background pipeline. -/
theorem C8_background_disposition_witness :
    (dispatch [plainCmd, bgCmd] (setupTrace allOk 2) 0).waits = [] ∧
    (dispatch [plainCmd, bgCmd] (setupTrace allOk 2) 0).bgAdded = List.range 2 ∧
    (dispatch [plainCmd, bgCmd] (setupTrace allOk 2) 0).reportNum = some (0 + 1) :=
  (C8_background_disposition allOk [plainCmd, bgCmd] 0 2 (by decide) (by decide)
    (by decide)).1 (by decide)

/-- C4 counterexample: the number the code reports is
    `background_pids.size() + 1` (line 302), which counts outstanding
    background *process handles*, not jobs.  After one two-stage
    background pipeline (pids 10 and 11, one outstanding job), the next
    background dispatch is reported as `[3]`, while the claim's
    "outstanding jobs + 1" is `2`. -/
theorem C4_job_number_cex :
    (dispatch [bgCmd] (setupTrace allOk 1)
        (bgPidsOfJobs [[10, 11]]).length).reportNum = some 3 ∧
    outstandingJobs [[10, 11]] + 1 = 2 ∧
    (dispatch [bgCmd] (setupTrace allOk 1)
        (bgPidsOfJobs [[10, 11]]).length).reportNum ≠
      some (outstandingJobs [[10, 11]] + 1) := by
  decide

/-- C4 amended: whenever a pipeline is dispatched in the background, the
    job is reported once, with a sequence number equal to the current
    count of outstanding background *process handles* plus one at
    dispatch time (`background_pids.size() + 1`, line 302) — one report
    per job, but the count is of handles, not jobs. -/
theorem C4_background_report_number (env : SysEnv) (cmds : List Command)
    (bgPids : List Nat) (n : Nat) (hn : 0 < n)
    (hok : hasSetupError (setupTrace env n) = false)
    (hbg : (cmds.getLastD default).isBackground = true) :
    (dispatch cmds (setupTrace env n) bgPids.length).reportNum =
      some (backgroundReportNumber bgPids) ∧
    backgroundReportNumber bgPids = bgPids.length + 1 := by
  have hsp : spawnedOf (setupTrace env n) = List.range n := by
    have h1 := setupAux_spawned_ok env n n 0 none (by omega) hok
    simp only [setupTrace]
    rw [h1, List.range_eq_range']
  simp only [List.getLastD_eq_getLast?] at hbg
  refine ⟨?_, rfl⟩
  simp [dispatch, hok, hsp, range_getLast? n hn, hbg, backgroundReportNumber]

/-- Witness for C4's amended claim at a concrete background dispatch. -/
theorem C4_background_report_number_witness :
    (dispatch [bgCmd] (setupTrace allOk 1) [10, 11].length).reportNum =
      some (backgroundReportNumber [10, 11]) :=
  (C4_background_report_number allOk [bgCmd] [10, 11] 1 (by decide) (by decide)
    (by decide)).1

/-- C3 counterexample: on `execvp` failure the child exits with
    `EXIT_FAILURE` (= 1, line 261), which is exactly a status a program
    that ran and itself returned non-zero can produce, so the status is
    *not* distinguishable. -/
theorem C3_exec_status_cex : ¬ execFailureDistinguishable := by
  intro h
  exact h 1 ⟨le_refl 1, by norm_num⟩ (by decide)

/-- C3 amended: for every command whose target cannot be located or
    executed, the child reports the error and terminates with the
    non-zero status `EXIT_FAILURE` (= 1) — non-zero, but coinciding with
    the status of a program that ran and itself returned 1, hence not
    distinguishable from it. -/
theorem C3_exec_failure_status (cmd : Command) (isFirst isLast : Bool)
    (cenv : ChildEnv) (c : Nat)
    (h : (childRun cmd isFirst isLast cenv).outcome = ChildOutcome.execFailed c) :
    c = EXIT_FAILURE ∧ EXIT_FAILURE ≠ 0 := by
  have hcases : ∀ (hin hout isF isL a b e : Bool),
      (childRunCore hin hout isF isL ⟨a, b, e⟩).outcome = ChildOutcome.execed ∨
      (childRunCore hin hout isF isL ⟨a, b, e⟩).outcome =
        ChildOutcome.execFailed EXIT_FAILURE ∨
      (childRunCore hin hout isF isL ⟨a, b, e⟩).outcome =
        ChildOutcome.exited EXIT_FAILURE := by
    decide
  obtain ⟨a, b, e⟩ := cenv
  rcases hcases cmd.hasInput cmd.hasOutput isFirst isLast a b e with h1 | h1 | h1 <;>
    rw [childRun] at h <;> rw [h1] at h
  · exact absurd h (by simp)
  · refine ⟨?_, by decide⟩
    injection h with h
    exact h.symm
  · exact absurd h (by simp)

/-- Witness for C3's amended claim: a plain single command whose
    `execvp` fails exits with status `EXIT_FAILURE = 1`. -/
theorem C3_exec_failure_status_witness : 1 = EXIT_FAILURE ∧ EXIT_FAILURE ≠ 0 :=
  C3_exec_failure_status plainCmd true true
    { openInOk := true, openOutOk := true, execOk := false } 1 (by decide)

/-- C5: an input file on a non-first stage, or an output file on a
    non-last stage, makes that child alone exit with `EXIT_FAILURE`
    without ever reaching `execvp` (lines 219-222 and 236-239), while
    the parent's setup loop — whose trace does not depend on the
    commands' redirection fields at all — still forks every stage, so
    the other stages run independently. -/
theorem C5_redirection_position_violation (env : SysEnv) (n : Nat)
    (cmd : Command) (cenv : ChildEnv) (isFirst isLast : Bool) :
    (cmd.hasInput = true → isFirst = false →
      (childRun cmd isFirst isLast cenv).outcome = ChildOutcome.exited EXIT_FAILURE ∧
      (childRun cmd isFirst isLast cenv).outcome ≠ ChildOutcome.execed) ∧
    (cmd.hasOutput = true → isLast = false → cenv.openInOk = true →
      (childRun cmd isFirst isLast cenv).outcome = ChildOutcome.exited EXIT_FAILURE ∧
      (childRun cmd isFirst isLast cenv).outcome ≠ ChildOutcome.execed) ∧
    (hasSetupError (setupTrace env n) = false →
      spawnedOf (setupTrace env n) = List.range n) := by
  have hchild : ∀ (hin hout isF isL a b e : Bool),
      (hin = true → isF = false →
        (childRunCore hin hout isF isL ⟨a, b, e⟩).outcome =
            ChildOutcome.exited EXIT_FAILURE ∧
        (childRunCore hin hout isF isL ⟨a, b, e⟩).outcome ≠ ChildOutcome.execed) ∧
      (hout = true → isL = false → a = true →
        (childRunCore hin hout isF isL ⟨a, b, e⟩).outcome =
            ChildOutcome.exited EXIT_FAILURE ∧
        (childRunCore hin hout isF isL ⟨a, b, e⟩).outcome ≠ ChildOutcome.execed) := by
    decide
  obtain ⟨a, b, e⟩ := cenv
  refine ⟨(hchild cmd.hasInput cmd.hasOutput isFirst isLast a b e).1,
    (hchild cmd.hasInput cmd.hasOutput isFirst isLast a b e).2, ?_⟩
  intro hok
  have h1 := setupAux_spawned_ok env n n 0 none (by omega) hok
  simp only [setupTrace]
  rw [h1, List.range_eq_range']

/-- A command with an input redirection file. -/
def inFileCmd : Command :=
  { args := ["wc"], in_file := some "data.txt", out_file := none, background := false }

/-- Witness for C5: the second stage of a pipeline carrying an input
    file exits with `EXIT_FAILURE` without executing its program. -/
theorem C5_redirection_position_violation_witness :
    (childRun inFileCmd false true childAllOk).outcome =
        ChildOutcome.exited EXIT_FAILURE ∧
    (childRun inFileCmd false true childAllOk).outcome ≠ ChildOutcome.execed :=
  (C5_redirection_position_violation allOk 2 inFileCmd childAllOk false true).1
    (by decide) (by decide)

/-- C6: the `cd` built-in applies its rules in priority order
    (lines 126-157): pipeline of length > 1 → reject; background flag →
    reject; no argument → `HOME` (error if unset); argument `-` →
    stored previous directory (error if empty); otherwise the argument
    verbatim.  On the `cd` path no child is ever spawned (the built-in
    `continue`s at line 175 before the fork loop). -/
theorem C6_cd_rules (cmds : List Command) (home : Option String) (prev : String)
    (env : SysEnv) :
    (1 < cmds.length → cdDecide cmds home prev = CdAction.rejectPipeline) ∧
    (¬1 < cmds.length → (cmds.headD default).isBackground = true →
      cdDecide cmds home prev = CdAction.rejectBackground) ∧
    (¬1 < cmds.length → (cmds.headD default).isBackground = false →
      (cmds.headD default).args.length < 2 →
      (home = none → cdDecide cmds home prev = CdAction.errHomeUnset) ∧
      (∀ h, home = some h → cdDecide cmds home prev = CdAction.chdirTo h false)) ∧
    (¬1 < cmds.length → (cmds.headD default).isBackground = false →
      ¬(cmds.headD default).args.length < 2 →
      (cmds.headD default).args.getD 1 "" = "-" →
      (prev = "" → cdDecide cmds home prev = CdAction.errNoPrev) ∧
      (prev ≠ "" → cdDecide cmds home prev = CdAction.chdirTo prev true)) ∧
    (¬1 < cmds.length → (cmds.headD default).isBackground = false →
      ¬(cmds.headD default).args.length < 2 →
      (cmds.headD default).args.getD 1 "" ≠ "-" →
      cdDecide cmds home prev =
        CdAction.chdirTo ((cmds.headD default).args.getD 1 "") false) ∧
    (cdApplies cmds = true → lineSpawnCount cmds env = 0) := by
  refine ⟨?_, ?_, ?_, ?_, ?_, ?_⟩
  · intro h
    simp only [cdDecide, if_pos h]
  · intro h1 h2
    simp only [cdDecide]
    rw [if_neg h1, h2]
    simp
  · intro h1 h2 h3
    constructor
    · rintro rfl
      simp only [cdDecide]
      rw [if_neg h1, h2]
      simp only [Bool.false_eq_true, if_false]
      rw [if_pos h3]
    · rintro h rfl
      simp only [cdDecide]
      rw [if_neg h1, h2]
      simp only [Bool.false_eq_true, if_false]
      rw [if_pos h3]
  · intro h1 h2 h3 h4
    constructor
    · rintro rfl
      simp only [cdDecide]
      rw [if_neg h1, h2]
      simp only [Bool.false_eq_true, if_false]
      rw [if_neg h3, if_pos h4]
      simp
    · intro h5
      simp only [cdDecide]
      rw [if_neg h1, h2]
      simp only [Bool.false_eq_true, if_false]
      rw [if_neg h3, if_pos h4, if_neg h5]
  · intro h1 h2 h3 h4
    simp only [cdDecide]
    rw [if_neg h1, h2]
    simp only [Bool.false_eq_true, if_false]
    rw [if_neg h3, if_neg h4]
  · intro h
    simp [lineSpawnCount, h]

/-- A `cd` command inside a pipeline, for the witness. -/
def cdCmdTmp : Command :=
  { args := ["cd", "/tmp"], in_file := none, out_file := none, background := false }

/-- A plain `ls` command, for the witness. -/
def lsCmd : Command :=
  { args := ["ls"], in_file := none, out_file := none, background := false }

/-- Witness for C6: `cd /tmp | ls` is rejected as a pipeline, and the
    line spawns no child at all. -/
theorem C6_cd_rules_witness :
    cdDecide [cdCmdTmp, lsCmd] none "" = CdAction.rejectPipeline ∧
    lineSpawnCount [cdCmdTmp, lsCmd] allOk = 0 :=
  ⟨(C6_cd_rules [cdCmdTmp, lsCmd] none "" allOk).1 (by decide),
    (C6_cd_rules [cdCmdTmp, lsCmd] none "" allOk).2.2.2.2.2 (by decide)⟩

/-- C7: on a successful directory change the directory captured before
    the change becomes the new previous-directory value, and the
    resulting directory is printed only on the `-` path (and there it is
    printed whenever the post-change `getcwd` succeeds); on a failed
    change the error is reported and the previous-directory value is
    unchanged. -/
theorem C7_cd_prevdir_update (before after : Option String) (prev : String)
    (isDash : Bool) (d : String) (hb : before = some d) (hd : d ≠ "") :
    (cdExec true before after prev isDash).newPrev = d ∧
    ((cdExec true before after prev isDash).printed = true → isDash = true) ∧
    (isDash = true → after.isSome = true →
      (cdExec true before after prev isDash).printed = true) ∧
    (cdExec false before after prev isDash).newPrev = prev ∧
    (cdExec false before after prev isDash).printed = false ∧
    (cdExec false before after prev isDash).errReported = true := by
  subst hb
  refine ⟨?_, ?_, ?_, ?_, ?_, ?_⟩
  · simp [cdExec, hd]
  · intro hp
    simp [cdExec] at hp
    exact hp.1
  · intro hd1 hs
    simp [cdExec, hd1, hs]
  · simp [cdExec]
  · simp [cdExec]
  · simp [cdExec]

/-- Witness for C7 at a concrete `cd -` from `/a/b`. -/
theorem C7_cd_prevdir_update_witness :
    (cdExec true (some "/a/b") (some "/prev") "/prev" true).newPrev = "/a/b" ∧
    ((cdExec true (some "/a/b") (some "/prev") "/prev" true).printed = true →
      true = true) ∧
    (true = true → (some "/prev" : Option String).isSome = true →
      (cdExec true (some "/a/b") (some "/prev") "/prev" true).printed = true) ∧
    (cdExec false (some "/a/b") (some "/prev") "/prev" true).newPrev = "/prev" ∧
    (cdExec false (some "/a/b") (some "/prev") "/prev" true).printed = false ∧
    (cdExec false (some "/a/b") (some "/prev") "/prev" true).errReported = true :=
  C7_cd_prevdir_update (some "/a/b") (some "/prev") "/prev" true "/a/b" rfl
    (by decide)

lemma foldl_stdioApplyEv {α : Type} (t : List PEv) (s : StdioState α) :
    t.foldl stdioApplyEv s = s := by
  induction t generalizing s with
  | nil => rfl
  | cons e t ih => simp [List.foldl_cons, stdioApplyEv, ih]

/-- C9: after every pipeline dispatch — the setup loop touching the
    shell's own streams in no event, whatever the failure pattern — the
    shell's standard input and output are restored to their pre-dispatch
    targets (lines 337-338) and both backup descriptors are closed
    (lines 339-340). -/
theorem C9_stdio_restored {α : Type} (de : DupEnv) (env : SysEnv) (n : Nat)
    (s : StdioState α) (h1 : de.dupInOk = true) (h2 : de.dupOutOk = true) :
    (runStdio de env n s).2 = true ∧
    (runStdio de env n s).1.fd0 = s.fd0 ∧
    (runStdio de env n s).1.fd1 = s.fd1 ∧
    (runStdio de env n s).1.bakIn = none ∧
    (runStdio de env n s).1.bakOut = none := by
  simp [runStdio, h1, h2, foldl_stdioApplyEv]

/-- Witness for C9 at a concrete stdio state and a failing pipeline
    (the restore happens on error paths too). -/
theorem C9_stdio_restored_witness :
    (runStdio ⟨true, true⟩ pipeFailAt1 3
        ({ fd0 := 10, fd1 := 11, bakIn := none, bakOut := none } : StdioState Nat)).1.fd0
      = 10 ∧
    (runStdio ⟨true, true⟩ pipeFailAt1 3
        ({ fd0 := 10, fd1 := 11, bakIn := none, bakOut := none } : StdioState Nat)).1.fd1
      = 11 :=
  ⟨(C9_stdio_restored ⟨true, true⟩ pipeFailAt1 3 _ rfl rfl).2.1,
    (C9_stdio_restored ⟨true, true⟩ pipeFailAt1 3 _ rfl rfl).2.2.1⟩

/-- The command `cd -`. -/
def cdDashCmd : Command :=
  { args := ["cd", "-"], in_file := none, out_file := none, background := false }

/-- C10 counterexample: with `PWD` set to the empty string the
    initialization "succeeds" (the variable is present, lines 42-44) yet
    leaves `previousDir` empty, so `cd -` as the very first command
    reports the no-previous-directory error instead of changing to the
    startup directory. -/
theorem C10_prevdir_init_cex :
    initPrevDir (some "") (some "/start") = "" ∧
    cdDecide [cdDashCmd] (some "/home/u") (initPrevDir (some "") (some "/start")) =
      CdAction.errNoPrev := by
  decide

/-- C10 amended: `previousDir` is initialized from `PWD` (falling back
    to `getcwd`), and whenever the resulting value is non-empty — `PWD`
    set to a non-empty string, or `PWD` unset and `getcwd` succeeding
    with a non-empty path — `cd -` issued as the very first command
    changes to that startup directory instead of reporting the
    no-previous-directory error. -/
theorem C10_prevdir_init (pwdEnv cwdRes : Option String) (home : Option String)
    (h : initPrevDir pwdEnv cwdRes ≠ "") :
    cdDecide [cdDashCmd] home (initPrevDir pwdEnv cwdRes) =
      CdAction.chdirTo (initPrevDir pwdEnv cwdRes) true ∧
    (∀ s, pwdEnv = some s → initPrevDir pwdEnv cwdRes = s) ∧
    (pwdEnv = none → ∀ c, cwdRes = some c → initPrevDir pwdEnv cwdRes = c) := by
  refine ⟨?_, ?_, ?_⟩
  · simp [cdDecide, cdDashCmd, Command.isBackground, h]
  · rintro s rfl
    simp [initPrevDir]
  · rintro rfl c rfl
    simp [initPrevDir]

/-- Witness for C10's amended claim: `PWD=/start` makes `cd -` as the
    first command change to `/start`. -/
theorem C10_prevdir_init_witness :
    cdDecide [cdDashCmd] none (initPrevDir (some "/start") none) =
      CdAction.chdirTo (initPrevDir (some "/start") none) true :=
  (C10_prevdir_init (some "/start") none none (by decide)).1

end Shell
